import Mathlib

/-!
Shallow embedding of the linkedin-mcp-server activity-scraping pipeline
(`linkedin_mcp_server/tools/activity.py`) and of the saved-posts query tools
(`linkedin_mcp_server/tools/posts.py`).

DOM access is modelled abstractly: a feed item is the record of what each CSS
selector lookup used by the source returns; `find_element` raising
`NoSuchElementException` is modelled as the corresponding field being `none`,
and `element.text` as the carried string.  `find_elements` (which never
raises) is modelled as a plain list.
-/

namespace LinkedInMcp

/-- Substring occurrence test on character lists, modelling Python's
`needle in haystack` for strings. -/
def subList (needle : List Char) : List Char → Bool
  | [] => needle.isEmpty
  | c :: cs => needle.isPrefixOf (c :: cs) || subList needle cs

/-- Python's `needle in haystack` on strings. -/
def pyIn (needle haystack : String) : Bool :=
  subList needle.data haystack.data

/-! ## Comments page model (`_scrape_comments`) -/

/-- Result of the sub-lookups inside an `article.comments-comment-entity`
element: `span.comments-comment-item__main-content` and
`time.comments-comment-meta__data`. -/
structure CommentEntity where
  mainContent : Option String
  metaTime : Option String
deriving DecidableEq, Repr

/-- One `div.feed-shared-update-v2` item on the comments activity page, as the
record of every selector lookup `_scrape_comments` performs on it.  A `none`
field means the corresponding `find_element` call raises.  `textBlocks` models
`find_elements(By.CSS_SELECTOR, "div.update-components-text")`, which never
raises. -/
structure FeedItem where
  headerText : Option String
  actorTitle : Option String
  textBlocks : List String
  replyEntity : Option CommentEntity
  originalEntity : Option CommentEntity
  commentEntity : Option CommentEntity
deriving DecidableEq, Repr

/-- One extracted comment record (the dict built by `_scrape_comments`). -/
structure CommentRecord where
  post_author : String
  post_content : String
  is_reply : Bool
  comment : String
  timestamp : String
  original_comment : Option String
deriving DecidableEq, Repr

def MAX_COMMENTS : Nat := 20
def MAX_REACTIONS : Nat := 20

/-- The classifier: `is_reply` is true when the header text element is found
and its text contains `"replied to"`; any lookup failure falls back to
`False`. -/
def classify (item : FeedItem) : Bool :=
  match item.headerText with
  | some t => pyIn "replied to" t
  | none => false

/-- The body of the per-item `try` block after `post_author` has been bound:
content extraction, then the reply or direct branch.  `none` models an
exception escaping the block. -/
def extractRest (item : FeedItem) (author : String) : Option CommentRecord :=
  let content := (item.textBlocks.head?).getD ""
  if classify item then
    match item.replyEntity with
    | none => none
    | some re =>
      match re.mainContent, re.metaTime with
      | some c, some ts =>
        match item.originalEntity with
        | none => none
        | some oe =>
          match oe.mainContent with
          | none => none
          | some oc =>
            some { post_author := author, post_content := content,
                   is_reply := true, comment := c, timestamp := ts,
                   original_comment := some oc }
      | _, _ => none
  else
    match item.commentEntity with
    | none => none
    | some ce =>
      match ce.mainContent, ce.metaTime with
      | some c, some ts =>
        some { post_author := author, post_content := content,
               is_reply := false, comment := c, timestamp := ts,
               original_comment := none }
      | _, _ => none

/-- Full per-item extraction: the `try` block starting at the `post_author`
lookup. -/
def extractComment (item : FeedItem) : Option CommentRecord :=
  match item.actorTitle with
  | none => none
  | some a => extractRest item a

/-- The `for` loop of `_scrape_comments`.  `boundAuthor` is the current value
of the Python local `post_author` (`none` while still unbound).  When an item
fails at the `post_author` lookup while the local is unbound, the warning
f-string raises `NameError`, which escapes the loop and is caught by the outer
handler, so the comments collected so far are returned. -/
def scrapeCommentsLoop : List FeedItem → List CommentRecord → Option String → List CommentRecord
  | [], acc, _ => acc
  | item :: rest, acc, boundAuthor =>
    if MAX_COMMENTS ≤ acc.length then acc
    else
      match item.actorTitle with
      | none =>
        match boundAuthor with
        | none => acc
        | some _ => scrapeCommentsLoop rest acc boundAuthor
      | some a =>
        match extractRest item a with
        | some r => scrapeCommentsLoop rest (acc ++ [r]) (some a)
        | none => scrapeCommentsLoop rest acc (some a)

/-- The rendered comments page: `container` is the result of locating
`div.scaffold-finite-scroll__content` (`none` when that lookup raises), and
its payload the `div.feed-shared-update-v2` items found inside it. -/
structure CommentsPage where
  container : Option (List FeedItem)
deriving DecidableEq, Repr

/-- `_scrape_comments`. -/
def scrape_comments (pg : CommentsPage) : List CommentRecord :=
  match pg.container with
  | none => []
  | some items => scrapeCommentsLoop items [] none

/-! ## Reactions page model (`_scrape_reactions`) -/

/-- One feed item on the reactions page: the four `find_element` lookups
`_scrape_reactions` performs on it. -/
structure ReactionItem where
  actorTitle : Option String
  updateText : Option String
  headerText : Option String
  subDescription : Option String
deriving DecidableEq, Repr

/-- One extracted reaction record. -/
structure ReactionRecord where
  post_author : String
  post_content : String
  reaction : String
  timestamp : String
deriving DecidableEq, Repr

/-- The per-item `try` block of `_scrape_reactions`: all four lookups must
succeed, otherwise the item yields nothing. -/
def extractReaction (item : ReactionItem) : Option ReactionRecord :=
  match item.actorTitle with
  | none => none
  | some a =>
    match item.updateText with
    | none => none
    | some c =>
      match item.headerText with
      | none => none
      | some rx =>
        match item.subDescription with
        | none => none
        | some ts => some ⟨a, c, rx, ts⟩

/-- The `for` loop of `_scrape_reactions`. -/
def scrapeReactionsLoop : List ReactionItem → List ReactionRecord → List ReactionRecord
  | [], acc => acc
  | item :: rest, acc =>
    if MAX_REACTIONS ≤ acc.length then acc
    else
      match extractReaction item with
      | some r => scrapeReactionsLoop rest (acc ++ [r])
      | none => scrapeReactionsLoop rest acc

/-- The rendered reactions page. -/
structure ReactionsPage where
  container : Option (List ReactionItem)
deriving DecidableEq, Repr

/-- `_scrape_reactions`. -/
def scrape_reactions (pg : ReactionsPage) : List ReactionRecord :=
  match pg.container with
  | none => []
  | some items => scrapeReactionsLoop items []

/-! ## Scroll loader model (`_scroll_for_items`)

The live page is modelled by two traces indexed by the number of scroll
actions performed so far: `counts k` is what
`find_elements("div.feed-shared-update-v2")` returns after `k` scrolls, and
`heights k` is what `return document.body.scrollHeight` returns after `k`
scrolls.  The loop is run on explicit fuel (one unit per measurement cycle,
i.e. per loop iteration); the result is `some k` when the loop breaks having
performed `k` scroll actions (and hence `k` settle pauses), `none` when fuel
runs out first. -/

structure ScrollModel where
  counts : Nat → Nat
  heights : Nat → Nat

/-- The `while True` loop of `_scroll_for_items`: at iteration entry `k`
scrolls have been performed and `lastH` holds the Python local
`last_height` (which equals `heights k` by construction). -/
def scrollLoop (pg : ScrollModel) (maxItems : Nat) : Nat → Nat → Nat → Option Nat
  | 0, _, _ => none
  | fuel + 1, k, lastH =>
    if maxItems ≤ pg.counts k then some k
    else
      let newH := pg.heights (k + 1)
      if newH = lastH then some (k + 1)
      else scrollLoop pg maxItems fuel (k + 1) newH

/-- `_scroll_for_items`: measure the initial height, then loop. -/
def scroll_for_items (pg : ScrollModel) (maxItems fuel : Nat) : Option Nat :=
  scrollLoop pg maxItems fuel 0 (pg.heights 0)

/-! ## Orchestrator model (`get_person_activity`) -/

/-- Outcome of one page's navigate-and-wait prologue: the explicit wait can
time out (`TimeoutException`), fail some other way, or succeed with a rendered
page. -/
inductive PhaseLoad (α : Type) : Type
  | timeout : PhaseLoad α
  | failure : PhaseLoad α
  | ready : α → PhaseLoad α
deriving DecidableEq, Repr

/-- Environment of one `get_person_activity` call: whether `safe_get_driver`
succeeds, and what each phase's navigate/wait/scroll produces. -/
structure Env where
  driverOk : Bool
  commentsLoad : PhaseLoad CommentsPage
  reactionsLoad : PhaseLoad ReactionsPage
deriving DecidableEq, Repr

/-- The comments phase: on timeout or any other caught failure the
`activities["comments"]` entry keeps its initial `[]`. -/
def commentsPhase (env : Env) : List CommentRecord :=
  match env.commentsLoad with
  | .timeout => []
  | .failure => []
  | .ready pg => scrape_comments pg

/-- The reactions phase, same policy. -/
def reactionsPhase (env : Env) : List ReactionRecord :=
  match env.reactionsLoad with
  | .timeout => []
  | .failure => []
  | .ready pg => scrape_reactions pg

/-- Result of the tool call: either the activities dict (no error field), or
the structured error response produced by `handle_tool_error`. -/
inductive ToolResult : Type
  | ok : List CommentRecord → List ReactionRecord → ToolResult
  | err : String → ToolResult
deriving DecidableEq, Repr

/-- `get_person_activity`: the outer `try` only fails when the driver cannot
be obtained (modelled by `driverOk = false`); otherwise both phases run in
sequence and the activities dict is returned. -/
def get_person_activity (env : Env) : ToolResult :=
  if env.driverOk then ToolResult.ok (commentsPhase env) (reactionsPhase env)
  else ToolResult.err "get_person_activity"

/-! ## Saved-posts model (`posts.py`) -/

/-- One post record in the saved JSON file, restricted to the fields the
claims touch: `"Text"` is read with `.get` (hence optional with default
`""`), `"Posted Date"` is read by direct indexing and is always written by
`fetch_and_save_linkedin_posts` (as `post.get("posted", "").split(" ")[0]`,
the empty string when the fetched post lacks a `posted` field). -/
structure SavedPost where
  text : Option String
  postedDate : String
deriving DecidableEq, Repr

/-- Python `str.lower` on the character list of a string. -/
def pyLower (s : String) : List Char :=
  s.data.map Char.toLower

/-- Python `str.upper` on the character list of a string. -/
def pyUpper (s : String) : List Char :=
  s.data.map Char.toUpper

/-- The dict returned by `search_posts`. -/
structure SearchResult where
  keywords : List String
  mode : String
  total_results : Nat
  posts : List SavedPost
  has_more : Bool
deriving DecidableEq, Repr

/-- `search_posts` given the decoded contents of the saved file: filter on
lowercased text, `all` of the keywords in `"AND"` mode (after uppercasing the
mode argument), `any` otherwise, then paginate to the first 5. -/
def search_posts (keywords : List String) (mode : String) (posts : List SavedPost) : SearchResult :=
  let filtered := posts.filter fun p =>
    let text := pyLower ((p.text).getD "")
    if pyUpper mode = "AND".data then
      keywords.all fun k => subList (pyLower k) text
    else
      keywords.any fun k => subList (pyLower k) text
  { keywords := keywords, mode := mode, total_results := filtered.length,
    posts := filtered.take 5, has_more := decide (5 < filtered.length) }

/-! ## Date-range query model (`get_posts_by_date`) -/

/-- Day count of a month, with the Gregorian leap-year rule, as
`datetime.date` validates it. -/
def daysInMonth (y m : Nat) : Nat :=
  if m = 2 then
    if y % 4 = 0 ∧ (y % 100 ≠ 0 ∨ y % 400 = 0) then 29 else 28
  else if m = 4 ∨ m = 6 ∨ m = 9 ∨ m = 11 then 30 else 31

/-- Split a character list on the literal `-`. -/
def splitDash : List Char → List (List Char)
  | [] => [[]]
  | c :: cs =>
    if c = '-' then [] :: splitDash cs
    else
      match splitDash cs with
      | [] => [[c]]
      | g :: gs => (c :: g) :: gs

/-- Numeric value of a digit list. -/
def digitsToNat (cs : List Char) : Nat :=
  cs.foldl (fun a c => a * 10 + (c.toNat - 48)) 0

/-- `datetime.strptime(s, "%Y-%m-%d")`: `%Y` is exactly four digits, `%m` and
`%d` one or two digits, full match required, and the resulting calendar date
must be valid (month 1–12, day within the month, year at least 1); on any
violation `ValueError` is raised, modelled as `none`. -/
def parseDate (s : String) : Option (Nat × Nat × Nat) :=
  match splitDash s.data with
  | [ys, ms, ds] =>
    if ys.length = 4 ∧ ys.all Char.isDigit ∧
       1 ≤ ms.length ∧ ms.length ≤ 2 ∧ ms.all Char.isDigit ∧
       1 ≤ ds.length ∧ ds.length ≤ 2 ∧ ds.all Char.isDigit then
      let y := digitsToNat ys
      let m := digitsToNat ms
      let d := digitsToNat ds
      if 1 ≤ y ∧ 1 ≤ m ∧ m ≤ 12 ∧ 1 ≤ d ∧ d ≤ daysInMonth y m then
        some (y, m, d)
      else none
    else none
  | _ => none

/-- `datetime` comparison: lexicographic on (year, month, day). -/
def dateLE (a b : Nat × Nat × Nat) : Bool :=
  decide (a.1 < b.1 ∨ (a.1 = b.1 ∧ (a.2.1 < b.2.1 ∨ (a.2.1 = b.2.1 ∧ a.2.2 ≤ b.2.2))))

/-- Outcome of `get_posts_by_date`: a returned dict (possibly the
invalid-format message) or an unhandled `ValueError` escaping the tool. -/
inductive DateQueryResult : Type
  | response : Option String → Nat → List SavedPost → DateQueryResult
  | valueError : DateQueryResult
deriving DecidableEq, Repr

/-- `get_posts_by_date` given the decoded contents of the saved file: only
the parsing of the two argument dates is guarded by `try/except ValueError`;
the per-post `datetime.strptime(post["Posted Date"], "%Y-%m-%d")` inside the
filtering comprehension is not, so a post with an unparsable date makes the
whole call raise. -/
def get_posts_by_date (start_date end_date : String) (posts : List SavedPost) : DateQueryResult :=
  match parseDate start_date, parseDate end_date with
  | some s, some e =>
    if posts.any fun p => (parseDate p.postedDate).isNone then
      DateQueryResult.valueError
    else
      let filtered := posts.filter fun p =>
        match parseDate p.postedDate with
        | some d => dateLE s d && dateLE d e
        | none => false
      DateQueryResult.response none filtered.length filtered
  | _, _ => DateQueryResult.response (some "Invalid date format. Use 'YYYY-MM-DD'.") 0 []

/-! ## Concrete fixtures used to instantiate the theorems -/

/-- A well-formed direct-comment feed item. -/
def gItem : FeedItem :=
  { headerText := none, actorTitle := some "A", textBlocks := ["t"],
    replyEntity := none, originalEntity := none,
    commentEntity := some ⟨some "c", some "ts"⟩ }

/-- A malformed feed item whose `post_author` element is missing. -/
def badAuthorless : FeedItem :=
  { headerText := none, actorTitle := none, textBlocks := [],
    replyEntity := none, originalEntity := none, commentEntity := none }

/-- A well-formed reply feed item. -/
def replyItem : FeedItem :=
  { headerText := some "X replied to Y", actorTitle := some "A",
    textBlocks := ["p"], replyEntity := some ⟨some "rc", some "1d"⟩,
    originalEntity := some ⟨some "oc", none⟩, commentEntity := none }

/-- The record extracted from `replyItem`. -/
def recReply : CommentRecord :=
  { post_author := "A", post_content := "p", is_reply := true,
    comment := "rc", timestamp := "1d", original_comment := some "oc" }

/-- A comments page holding just `replyItem`. -/
def pgReply : CommentsPage := ⟨some [replyItem]⟩

/-- A feed item with no header text element at all. -/
def itemNoHeader : FeedItem :=
  { headerText := none, actorTitle := some "A", textBlocks := [],
    replyEntity := none, originalEntity := none,
    commentEntity := some ⟨some "c", some "t"⟩ }

/-- A well-formed reaction feed item. -/
def rgItem : ReactionItem := ⟨some "a", some "c", some "liked this", some "2d"⟩

/-- A reaction feed item whose reaction-label element is missing. -/
def rbadItem : ReactionItem := ⟨some "a", some "c", none, some "2d"⟩

/-- An environment whose comments phase times out while the reactions page
renders one well-formed item. -/
def envTimeout : Env := ⟨true, PhaseLoad.timeout, PhaseLoad.ready ⟨some [rgItem]⟩⟩

/-- A page whose height never changes and which renders no items. -/
def pgFlat : ScrollModel := ⟨fun _ => 0, fun _ => 100⟩

/-- A page that already renders 25 items before any scroll. -/
def pgFull : ScrollModel := ⟨fun _ => 25, fun k => 100 + k⟩

/-- A saved post whose `"Posted Date"` value is the empty string, as written
by `fetch_and_save_linkedin_posts` when the fetched post lacks a `posted`
field. -/
def badDatePost : SavedPost := ⟨some "x", ""⟩

/-! ## Helper lemmas -/

lemma length_filterMap_all_some {α β : Type} (f : α → Option β) (l : List α)
    (h : ∀ x ∈ l, (f x).isSome = true) : (l.filterMap f).length = l.length := by
  induction l with
  | nil => rfl
  | cons a t ih =>
    obtain ⟨b, hb⟩ := Option.isSome_iff_exists.mp (h a (by simp))
    simp [List.filterMap_cons, hb, ih fun x hx => h x (by simp [hx])]

lemma extractComment_eq_some_parts (item : FeedItem) (r : CommentRecord)
    (h : extractComment item = some r) :
    ∃ a, item.actorTitle = some a ∧ extractRest item a = some r := by
  cases hA : item.actorTitle with
  | none => simp [extractComment, hA] at h
  | some a => exact ⟨a, rfl, by simpa [extractComment, hA] using h⟩

lemma extractRest_reply_inv (item : FeedItem) (a : String) (r : CommentRecord)
    (h : extractRest item a = some r) :
    (r.is_reply = true → r.original_comment ≠ none) ∧
    (r.is_reply = false → r.original_comment = none) := by
  simp only [extractRest] at h
  split at h
  · rcases hR : item.replyEntity with _ | re
    · simp only [hR] at h; exact absurd h (by simp)
    · simp only [hR] at h
      rcases hC : re.mainContent with _ | c <;> rcases hT : re.metaTime with _ | ts <;>
        simp only [hC, hT] at h
      all_goals try exact Option.noConfusion h
      rcases hO : item.originalEntity with _ | oe
      · simp only [hO] at h; exact absurd h (by simp)
      · simp only [hO] at h
        rcases hOC : oe.mainContent with _ | oc
        · simp only [hOC] at h; exact absurd h (by simp)
        · simp only [hOC] at h
          obtain rfl := Option.some.inj h
          simp
  · rcases hE : item.commentEntity with _ | ce
    · simp only [hE] at h; exact absurd h (by simp)
    · simp only [hE] at h
      rcases hC : ce.mainContent with _ | c <;> rcases hT : ce.metaTime with _ | ts <;>
        simp only [hC, hT] at h
      all_goals try exact Option.noConfusion h
      obtain rfl := Option.some.inj h
      simp

lemma extractComment_reply_inv (item : FeedItem) (r : CommentRecord)
    (h : extractComment item = some r) :
    (r.is_reply = true → r.original_comment ≠ none) ∧
    (r.is_reply = false → r.original_comment = none) := by
  obtain ⟨a, _, hE⟩ := extractComment_eq_some_parts item r h
  exact extractRest_reply_inv item a r hE

lemma scrapeCommentsLoop_all_good :
    ∀ (items : List FeedItem) (acc : List CommentRecord) (bound : Option String),
      (∀ x ∈ items, (extractComment x).isSome = true) →
      acc.length + items.length ≤ MAX_COMMENTS →
      scrapeCommentsLoop items acc bound = acc ++ items.filterMap extractComment := by
  intro items
  induction items with
  | nil => intro acc bound _ _; simp [scrapeCommentsLoop]
  | cons it rest ih =>
    intro acc bound hgood hlen
    obtain ⟨r, hr⟩ := Option.isSome_iff_exists.mp (hgood it (by simp))
    obtain ⟨a, hA, hE⟩ := extractComment_eq_some_parts it r hr
    have hacc : ¬ MAX_COMMENTS ≤ acc.length := by
      simp only [List.length_cons] at hlen; omega
    simp only [scrapeCommentsLoop, hA, hE, if_neg hacc]
    rw [ih (acc ++ [r]) (some a) (fun x hx => hgood x (by simp [hx]))
      (by simp only [List.length_append, List.length_cons, List.length_nil] at hlen ⊢; omega)]
    simp [List.filterMap_cons, hr]

lemma scrapeCommentsLoop_isolation :
    ∀ (pre : List FeedItem) (bad : FeedItem) (post : List FeedItem)
      (acc : List CommentRecord) (bound : Option String),
      (∀ x ∈ pre, (extractComment x).isSome = true) →
      (∀ x ∈ post, (extractComment x).isSome = true) →
      extractComment bad = none →
      (bad.actorTitle.isSome = true ∨ bound.isSome = true ∨ pre ≠ []) →
      acc.length + pre.length + 1 + post.length ≤ MAX_COMMENTS →
      scrapeCommentsLoop (pre ++ bad :: post) acc bound =
        acc ++ pre.filterMap extractComment ++ post.filterMap extractComment := by
  intro pre
  induction pre with
  | nil =>
    intro bad post acc bound _ hpost hbad hguard hlen
    have hacc : ¬ MAX_COMMENTS ≤ acc.length := by
      simp only [List.length_nil] at hlen; omega
    have hrest : acc.length + post.length ≤ MAX_COMMENTS := by
      simp only [List.length_nil] at hlen; omega
    cases hA : bad.actorTitle with
    | some a =>
      have hE : extractRest bad a = none := by simpa [extractComment, hA] using hbad
      simp only [List.nil_append, scrapeCommentsLoop, hA, hE, if_neg hacc]
      simp [scrapeCommentsLoop_all_good post acc (some a) hpost hrest]
    | none =>
      rcases hguard with hg | hg | hg
      · rw [hA] at hg; simp at hg
      · obtain ⟨b, hb⟩ := Option.isSome_iff_exists.mp hg
        subst hb
        simp only [List.nil_append, scrapeCommentsLoop, hA, if_neg hacc]
        simp [scrapeCommentsLoop_all_good post acc (some b) hpost hrest]
      · simp at hg
  | cons p pre' ih =>
    intro bad post acc bound hpre hpost hbad _ hlen
    obtain ⟨r, hr⟩ := Option.isSome_iff_exists.mp (hpre p (by simp))
    obtain ⟨a, hA, hE⟩ := extractComment_eq_some_parts p r hr
    have hacc : ¬ MAX_COMMENTS ≤ acc.length := by
      simp only [List.length_cons] at hlen; omega
    simp only [List.cons_append, scrapeCommentsLoop, hA, hE, if_neg hacc, List.append_eq]
    rw [ih bad post (acc ++ [r]) (some a) (fun x hx => hpre x (by simp [hx])) hpost hbad
      (Or.inr (Or.inl rfl))
      (by simp only [List.length_append, List.length_cons, List.length_nil] at hlen ⊢; omega)]
    simp [List.filterMap_cons, hr]

lemma mem_scrapeCommentsLoop :
    ∀ (items : List FeedItem) (acc : List CommentRecord) (bound : Option String)
      (r : CommentRecord), r ∈ scrapeCommentsLoop items acc bound →
      r ∈ acc ∨ ∃ it : FeedItem, extractComment it = some r := by
  intro items
  induction items with
  | nil => intro acc bound r hr; exact Or.inl (by simpa [scrapeCommentsLoop] using hr)
  | cons it rest ih =>
    intro acc bound r hr
    by_cases hacc : MAX_COMMENTS ≤ acc.length
    · exact Or.inl (by simpa [scrapeCommentsLoop, if_pos hacc] using hr)
    · cases hA : it.actorTitle with
      | none =>
        cases bound with
        | none => exact Or.inl (by simpa [scrapeCommentsLoop, hA, if_neg hacc] using hr)
        | some b =>
          exact ih acc (some b) r (by simpa [scrapeCommentsLoop, hA, if_neg hacc] using hr)
      | some a =>
        cases hE : extractRest it a with
        | none =>
          exact ih acc (some a) r (by simpa [scrapeCommentsLoop, hA, hE, if_neg hacc] using hr)
        | some r' =>
          rcases ih (acc ++ [r']) (some a) r
              (by simpa [scrapeCommentsLoop, hA, hE, if_neg hacc] using hr) with h | h
          · rcases List.mem_append.mp h with h' | h'
            · exact Or.inl h'
            · refine Or.inr ⟨it, ?_⟩
              simp only [List.mem_singleton] at h'
              subst h'
              simp [extractComment, hA, hE]
          · exact Or.inr h

lemma scrapeCommentsLoop_length_le :
    ∀ (items : List FeedItem) (acc : List CommentRecord) (bound : Option String),
      acc.length ≤ MAX_COMMENTS → (scrapeCommentsLoop items acc bound).length ≤ MAX_COMMENTS := by
  intro items
  induction items with
  | nil => intro acc bound h; simpa [scrapeCommentsLoop] using h
  | cons it rest ih =>
    intro acc bound h
    by_cases hacc : MAX_COMMENTS ≤ acc.length
    · simpa [scrapeCommentsLoop, if_pos hacc] using h
    · cases hA : it.actorTitle with
      | none =>
        cases bound with
        | none => simpa [scrapeCommentsLoop, hA, if_neg hacc] using h
        | some b =>
          simpa [scrapeCommentsLoop, hA, if_neg hacc] using ih acc (some b) h
      | some a =>
        cases hE : extractRest it a with
        | none => simpa [scrapeCommentsLoop, hA, hE, if_neg hacc] using ih acc (some a) h
        | some r =>
          have : (acc ++ [r]).length ≤ MAX_COMMENTS := by
            simp only [List.length_append, List.length_singleton]; omega
          simpa [scrapeCommentsLoop, hA, hE, if_neg hacc] using ih (acc ++ [r]) (some a) this

lemma scrapeReactionsLoop_all :
    ∀ (items : List ReactionItem) (acc : List ReactionRecord),
      acc.length + items.length ≤ MAX_REACTIONS →
      scrapeReactionsLoop items acc = acc ++ items.filterMap extractReaction := by
  intro items
  induction items with
  | nil => intro acc _; simp [scrapeReactionsLoop]
  | cons it rest ih =>
    intro acc hlen
    have hacc : ¬ MAX_REACTIONS ≤ acc.length := by
      simp only [List.length_cons] at hlen; omega
    cases hE : extractReaction it with
    | none =>
      simp only [scrapeReactionsLoop, hE, if_neg hacc]
      rw [ih acc (by simp only [List.length_cons] at hlen; omega)]
      simp [List.filterMap_cons, hE]
    | some r =>
      simp only [scrapeReactionsLoop, hE, if_neg hacc]
      rw [ih (acc ++ [r]) (by simp only [List.length_append, List.length_cons, List.length_nil] at hlen ⊢; omega)]
      simp [List.filterMap_cons, hE]

lemma scrapeReactionsLoop_length_le :
    ∀ (items : List ReactionItem) (acc : List ReactionRecord),
      acc.length ≤ MAX_REACTIONS → (scrapeReactionsLoop items acc).length ≤ MAX_REACTIONS := by
  intro items
  induction items with
  | nil => intro acc h; simpa [scrapeReactionsLoop] using h
  | cons it rest ih =>
    intro acc h
    by_cases hacc : MAX_REACTIONS ≤ acc.length
    · simpa [scrapeReactionsLoop, if_pos hacc] using h
    · cases hE : extractReaction it with
      | none => simpa [scrapeReactionsLoop, hE, if_neg hacc] using ih acc h
      | some r =>
        have : (acc ++ [r]).length ≤ MAX_REACTIONS := by
          simp only [List.length_append, List.length_singleton]; omega
        simpa [scrapeReactionsLoop, hE, if_neg hacc] using ih (acc ++ [r]) this

lemma extractReaction_none_of_missing (item : ReactionItem)
    (h : item.actorTitle = none ∨ item.updateText = none ∨
         item.headerText = none ∨ item.subDescription = none) :
    extractReaction item = none := by
  cases hA : item.actorTitle <;> cases hB : item.updateText <;>
    cases hC : item.headerText <;> cases hD : item.subDescription <;>
    simp_all [extractReaction]

lemma scrollLoop_isSome (pg : ScrollModel) (maxItems N : Nat)
    (hstable : ∀ j, N ≤ j → pg.heights (j + 1) = pg.heights j) :
    ∀ (fuel k : Nat), k ≤ N → N < fuel + k →
      (scrollLoop pg maxItems fuel k (pg.heights k)).isSome = true := by
  intro fuel
  induction fuel with
  | zero => intro k hk hfuel; omega
  | succ f ih =>
    intro k hk hfuel
    by_cases hc : maxItems ≤ pg.counts k
    · simp [scrollLoop, hc]
    · by_cases hh : pg.heights (k + 1) = pg.heights k
      · simp [scrollLoop, hc, hh]
      · have hkN : k < N := by
          rcases Nat.lt_or_ge k N with h | h
          · exact h
          · exact absurd (hstable k h) hh
        simp only [scrollLoop, if_neg hc, if_neg hh]
        exact ih (k + 1) (by omega) (by omega)

lemma scrollLoop_result_le (pg : ScrollModel) (maxItems : Nat) :
    ∀ (fuel k lastH res : Nat),
      scrollLoop pg maxItems fuel k lastH = some res → res ≤ fuel + k := by
  intro fuel
  induction fuel with
  | zero => intro k lastH res h; simp [scrollLoop] at h
  | succ f ih =>
    intro k lastH res h
    by_cases hc : maxItems ≤ pg.counts k
    · simp only [scrollLoop, if_pos hc, Option.some.injEq] at h; omega
    · by_cases hh : pg.heights (k + 1) = lastH
      · simp only [scrollLoop, if_neg hc, if_pos hh, Option.some.injEq] at h; omega
      · simp only [scrollLoop, if_neg hc, if_neg hh] at h
        have := ih (k + 1) (pg.heights (k + 1)) res h
        omega

lemma scrollLoop_breaks_only (pg : ScrollModel) (maxItems : Nat) :
    ∀ (fuel k res : Nat),
      scrollLoop pg maxItems fuel k (pg.heights k) = some res →
      maxItems ≤ pg.counts res ∨ (0 < res ∧ pg.heights res = pg.heights (res - 1)) := by
  intro fuel
  induction fuel with
  | zero => intro k res h; simp [scrollLoop] at h
  | succ f ih =>
    intro k res h
    by_cases hc : maxItems ≤ pg.counts k
    · simp only [scrollLoop, if_pos hc, Option.some.injEq] at h
      subst h; exact Or.inl hc
    · by_cases hh : pg.heights (k + 1) = pg.heights k
      · simp only [scrollLoop, if_neg hc, if_pos hh, Option.some.injEq] at h
        subst h
        exact Or.inr ⟨Nat.succ_pos k, by simpa using hh⟩
      · simp only [scrollLoop, if_neg hc, if_neg hh] at h
        exact ih (k + 1) res h

/-! ## Claim theorems -/

/-- C1 counterexample: a batch of 5 items whose first item is malformed
(missing the required `span.update-components-actor__title` sub-element)
while the other 4 are well-formed yields 0 records, not the 4 the claim
demands: the warning f-string references the still-unbound `post_author`
local, raising `NameError`, which aborts the whole batch. -/
theorem comment_isolation_counterexample :
    extractComment badAuthorless = none ∧
    ([gItem, gItem, gItem, gItem].all fun x => (extractComment x).isSome) = true ∧
    (scrape_comments ⟨some [badAuthorless, gItem, gItem, gItem, gItem]⟩).length = 0 := by
  decide

/-- C1 (amended): per-item failure isolation holds for a batch of 5 items
with a single malformed item at any position, provided the malformed item
either has its post-author element present or is not located before every
well-formed item (so the `post_author` local is bound when the warning is
logged): the scraper then returns exactly the 4 records of the other
items. -/
theorem comment_isolation_amended (pre post : List FeedItem) (bad : FeedItem)
    (hpre : ∀ x ∈ pre, (extractComment x).isSome = true)
    (hpost : ∀ x ∈ post, (extractComment x).isSome = true)
    (hbad : extractComment bad = none)
    (hguard : bad.actorTitle.isSome = true ∨ pre ≠ [])
    (hlen : pre.length + 1 + post.length = 5) :
    scrape_comments ⟨some (pre ++ bad :: post)⟩ =
      pre.filterMap extractComment ++ post.filterMap extractComment ∧
    (scrape_comments ⟨some (pre ++ bad :: post)⟩).length = 4 := by
  have heq := scrapeCommentsLoop_isolation pre bad post [] none hpre hpost hbad
    (by rcases hguard with h | h
        · exact Or.inl h
        · exact Or.inr (Or.inr h))
    (by simp only [List.length_nil, MAX_COMMENTS]; omega)
  have hmain : scrape_comments ⟨some (pre ++ bad :: post)⟩ =
      pre.filterMap extractComment ++ post.filterMap extractComment := by
    simpa [scrape_comments] using heq
  refine ⟨hmain, ?_⟩
  rw [hmain, List.length_append, length_filterMap_all_some _ _ hpre,
    length_filterMap_all_some _ _ hpost]
  omega

/-- C1 witness: batch of 5 with the malformed item in position 3. -/
theorem comment_isolation_amended_witness :
    scrape_comments ⟨some ([gItem, gItem] ++ badAuthorless :: [gItem, gItem])⟩ =
      [gItem, gItem].filterMap extractComment ++ [gItem, gItem].filterMap extractComment ∧
    (scrape_comments ⟨some ([gItem, gItem] ++ badAuthorless :: [gItem, gItem])⟩).length = 4 :=
  comment_isolation_amended [gItem, gItem] [gItem, gItem] badAuthorless
    (by decide) (by decide) (by decide) (by decide) (by decide)

/-- C2: every record returned by `_scrape_comments` satisfies the reply
invariant: `is_reply = true` implies `original_comment` is present, and
`is_reply = false` implies `original_comment` is `None`. -/
theorem comment_reply_invariant (pg : CommentsPage) (r : CommentRecord)
    (hr : r ∈ scrape_comments pg) :
    (r.is_reply = true → r.original_comment ≠ none) ∧
    (r.is_reply = false → r.original_comment = none) := by
  rcases pg with ⟨c⟩
  cases c with
  | none => simp [scrape_comments] at hr
  | some items =>
    rcases mem_scrapeCommentsLoop items [] none r
        (by simpa [scrape_comments] using hr) with h | ⟨it, hit⟩
    · simp at h
    · exact extractComment_reply_inv it r hit

/-- C2 witness: the invariant at the record scraped from a reply item. -/
theorem comment_reply_invariant_witness :
    (recReply.is_reply = true → recReply.original_comment ≠ none) ∧
    (recReply.is_reply = false → recReply.original_comment = none) :=
  comment_reply_invariant pgReply recReply (by decide)

/-- C3: when the driver is available and the comments-page wait times out,
`get_person_activity` still runs the reactions phase and returns the
activities dict (comments empty, reactions as produced by the reactions
phase), not an error response. -/
theorem orchestrator_phase_independence (env : Env)
    (hdriver : env.driverOk = true)
    (htimeout : env.commentsLoad = PhaseLoad.timeout) :
    get_person_activity env = ToolResult.ok [] (reactionsPhase env) := by
  simp [get_person_activity, hdriver, commentsPhase, htimeout]

/-- C3 witness: a concrete environment with a comments timeout and a ready
reactions page. -/
theorem orchestrator_phase_independence_witness :
    get_person_activity envTimeout = ToolResult.ok [] (reactionsPhase envTimeout) :=
  orchestrator_phase_independence envTimeout rfl rfl

/-- C4: for every rendered page state, `_scrape_comments` returns at most
`MAX_COMMENTS` (20) records and `_scrape_reactions` at most `MAX_REACTIONS`
(20), regardless of how many feed items are rendered. -/
theorem batch_bounds (pc : CommentsPage) (pr : ReactionsPage) :
    (scrape_comments pc).length ≤ MAX_COMMENTS ∧
    (scrape_reactions pr).length ≤ MAX_REACTIONS := by
  constructor
  · rcases pc with ⟨c⟩
    cases c with
    | none => simp [scrape_comments, MAX_COMMENTS]
    | some items =>
      simpa [scrape_comments] using
        scrapeCommentsLoop_length_le items [] none (by simp [MAX_COMMENTS])
  · rcases pr with ⟨c⟩
    cases c with
    | none => simp [scrape_reactions, MAX_REACTIONS]
    | some items =>
      simpa [scrape_reactions] using
        scrapeReactionsLoop_length_le items [] (by simp [MAX_REACTIONS])

/-- C5: if the measured page height stops increasing after `N` scroll
actions, `_scroll_for_items` terminates within `N + 1` measurement cycles
(fuel `N + 1` suffices) even when the item count never reaches the target,
and it can only have stopped because the item count reached the target or two
consecutive height measurements were equal. -/
theorem scroll_loader_terminates (pg : ScrollModel) (maxItems N : Nat)
    (hstable : ∀ j, N ≤ j → pg.heights (j + 1) = pg.heights j) :
    ∃ k, scroll_for_items pg maxItems (N + 1) = some k ∧ k ≤ N + 1 ∧
      (maxItems ≤ pg.counts k ∨ (0 < k ∧ pg.heights k = pg.heights (k - 1))) := by
  have h0 := scrollLoop_isSome pg maxItems N hstable (N + 1) 0 (Nat.zero_le N) (by omega)
  obtain ⟨k, hk⟩ := Option.isSome_iff_exists.mp h0
  refine ⟨k, hk, ?_, scrollLoop_breaks_only pg maxItems (N + 1) 0 k hk⟩
  have := scrollLoop_result_le pg maxItems (N + 1) 0 (pg.heights 0) k hk
  omega

/-- C5 witness: a page of constant height (stable from `N = 0`) rendering no
items terminates with fuel 1. -/
theorem scroll_loader_terminates_witness :
    ∃ k, scroll_for_items pgFlat 20 (0 + 1) = some k ∧ k ≤ 0 + 1 ∧
      (20 ≤ pgFlat.counts k ∨ (0 < k ∧ pgFlat.heights k = pgFlat.heights (k - 1))) :=
  scroll_loader_terminates pgFlat 20 0 (fun _ _ => rfl)

/-- C6: classification is total and faithful: an item is classified as a
reply exactly when its header text element is present and its text contains
the literal substring `"replied to"`, and a missing header text element
yields the `direct` classification (`is_reply = false`) rather than an
error. -/
theorem classifier_total (item : FeedItem) :
    (classify item = true ↔
      ∃ t, item.headerText = some t ∧ pyIn "replied to" t = true) ∧
    (item.headerText = none → classify item = false) := by
  cases h : item.headerText <;> simp [classify, h]

/-- C6 witness: an item lacking the header-text element is classified as
direct. -/
theorem classifier_total_witness : classify itemNoHeader = false :=
  (classifier_total itemNoHeader).2 rfl

/-- C7: if any of the four required reaction field lookups fails, the whole
item is dropped and the surviving list is exactly the one scraped without
that item, its length reduced by exactly that item; no partial reaction
record is emitted. -/
theorem reaction_atomicity (pre post : List ReactionItem) (bad : ReactionItem)
    (hpre : ∀ x ∈ pre, (extractReaction x).isSome = true)
    (hpost : ∀ x ∈ post, (extractReaction x).isSome = true)
    (hbad : bad.actorTitle = none ∨ bad.updateText = none ∨
            bad.headerText = none ∨ bad.subDescription = none)
    (hlen : pre.length + 1 + post.length ≤ MAX_REACTIONS) :
    extractReaction bad = none ∧
    scrape_reactions ⟨some (pre ++ bad :: post)⟩ =
      scrape_reactions ⟨some (pre ++ post)⟩ ∧
    (scrape_reactions ⟨some (pre ++ bad :: post)⟩).length =
      pre.length + post.length := by
  have hnone := extractReaction_none_of_missing bad hbad
  have h1 : scrape_reactions ⟨some (pre ++ bad :: post)⟩ =
      pre.filterMap extractReaction ++ post.filterMap extractReaction := by
    have := scrapeReactionsLoop_all (pre ++ bad :: post) []
      (by simp only [List.length_nil, List.length_append, List.length_cons]; omega)
    simpa [scrape_reactions, List.filterMap_append, List.filterMap_cons, hnone] using this
  have h2 : scrape_reactions ⟨some (pre ++ post)⟩ =
      pre.filterMap extractReaction ++ post.filterMap extractReaction := by
    have := scrapeReactionsLoop_all (pre ++ post) []
      (by simp only [List.length_nil, List.length_append, List.length_cons]; omega)
    simpa [scrape_reactions, List.filterMap_append] using this
  refine ⟨hnone, h1.trans h2.symm, ?_⟩
  rw [h1, List.length_append, length_filterMap_all_some _ _ hpre,
    length_filterMap_all_some _ _ hpost]

/-- C7 witness: a reaction item missing the reaction-label element between
two well-formed items. -/
theorem reaction_atomicity_witness :
    extractReaction rbadItem = none ∧
    scrape_reactions ⟨some ([rgItem] ++ rbadItem :: [rgItem])⟩ =
      scrape_reactions ⟨some ([rgItem] ++ [rgItem])⟩ ∧
    (scrape_reactions ⟨some ([rgItem] ++ rbadItem :: [rgItem])⟩).length =
      [rgItem].length + [rgItem].length :=
  reaction_atomicity [rgItem] [rgItem] rbadItem
    (by decide) (by decide) (by decide) (by decide)

/-- C8: when the initially rendered item count already meets the target,
`_scroll_for_items` performs zero scroll actions (and hence zero settle
pauses): the loop breaks at the count check before the first scroll. -/
theorem scroll_noop_when_target_met (pg : ScrollModel) (maxItems fuel : Nat)
    (hcount : maxItems ≤ pg.counts 0) (hfuel : 0 < fuel) :
    scroll_for_items pg maxItems fuel = some 0 := by
  cases fuel with
  | zero => omega
  | succ f => simp [scroll_for_items, scrollLoop, hcount]

/-- C8 witness: a page already rendering 25 items with target 20. -/
theorem scroll_noop_when_target_met_witness :
    scroll_for_items pgFull 20 3 = some 0 :=
  scroll_noop_when_target_met pgFull 20 3 (by decide) (by decide)

/-- C9: with an empty keywords list, `search_posts` returns every saved post
(paginated to 5) in `"AND"` mode — the empty `all` is vacuously true — but
zero posts in `"OR"` mode — the empty `any` is false. -/
theorem empty_keywords_asymmetry (posts : List SavedPost) :
    (search_posts [] "AND" posts).total_results = posts.length ∧
    (search_posts [] "AND" posts).posts = posts.take 5 ∧
    (search_posts [] "OR" posts).total_results = 0 ∧
    (search_posts [] "OR" posts).posts = [] := by
  have hAND : pyUpper "AND" = "AND".data := by decide
  have hOR : ¬ pyUpper "OR" = "AND".data := by decide
  refine ⟨?_, ?_, ?_, ?_⟩ <;>
    simp [search_posts, if_pos hAND, if_neg hOR, List.filter_true, List.filter_false]

/-- C10: `get_posts_by_date` is partial in the stored data: with valid
`start_date` and `end_date` arguments, a saved post whose `"Posted Date"`
does not parse as `YYYY-MM-DD` (such as the empty string written when the
fetched post lacked a `posted` field) makes the call raise an unhandled
`ValueError` instead of returning a result dict — only the two argument
parses are guarded. -/
theorem get_posts_by_date_unguarded (start_date end_date : String)
    (posts : List SavedPost) (p : SavedPost)
    (hs : (parseDate start_date).isSome = true)
    (he : (parseDate end_date).isSome = true)
    (hp : p ∈ posts) (hbad : parseDate p.postedDate = none) :
    get_posts_by_date start_date end_date posts = DateQueryResult.valueError := by
  obtain ⟨s, hs'⟩ := Option.isSome_iff_exists.mp hs
  obtain ⟨e, he'⟩ := Option.isSome_iff_exists.mp he
  have hany : (posts.any fun q => (parseDate q.postedDate).isNone) = true :=
    List.any_eq_true.mpr ⟨p, hp, by simp [hbad]⟩
  simp [get_posts_by_date, hs', he', hany]

/-- C10 witness: valid argument dates over a file holding one post with an
empty `"Posted Date"`. -/
theorem get_posts_by_date_unguarded_witness :
    get_posts_by_date "2024-01-01" "2024-12-31" [badDatePost] =
      DateQueryResult.valueError :=
  get_posts_by_date_unguarded "2024-01-01" "2024-12-31" [badDatePost] badDatePost
    (by decide) (by decide) (by decide) (by decide)

end LinkedInMcp
